import Mathlib

/-!
Verification development for the `lox` interpreter front-end
(scanner, parser, tree-walking evaluator).

Shallow embedding conventions:
* Rust `f64` is modelled by `ℚ`. Every numeric value this development
  evaluates is a small integer or short decimal, on which `f64`
  arithmetic is exact, so `ℚ` agrees with the code.
* Rust `String` is modelled by Lean `String`; `char_indices` positions
  are modelled by character indices (they coincide with Rust's byte
  offsets on ASCII input, which is all the development scans).
* `HashMap<String, V>` is modelled by an association list with
  insert-overwrite semantics (`varsInsert` / `varsGet`).
* A Rust `panic!` / `todo!` / `.unwrap()` failure is modelled by an
  explicit `panic` constructor in each result type, distinct from the
  `Err` values the code returns.
* Imperative loops are modelled by fuel-indexed structural recursion;
  every loop in the source consumes at least one character or token per
  iteration (proved below for the tokenize2 scanner as
  `scan_token2_spec`), so the fuel budgets chosen (input length + 1)
  are never exhausted on the runs the code performs.
-/

namespace Lox

/-! ## AST model (src/src/ast.rs)

`Operator`, `Expr`, `Stmt`, `AST` mirror `ast.rs`. The `EAssign`
variant is constructed by `parser.rs` (`Expr::assign`) and matched by
`evaluate.rs` (`Expr::EAssign`), so it is part of the expression type
those files use, although the enum written in `ast.rs` omits it. -/

inductive Operator where
| OAdd | OSub | OMul | ODiv
| OLt | OLe | OGt | OGe
| OEq | ONe | ONot | OAnd | OOr
deriving DecidableEq, Repr

inductive Expr where
| ENumber (value : String)
| EString (value : String)
| EBool (value : Bool)
| ENil
| EBinary (left : Expr) (op : Operator) (right : Expr)
| EUnary (op : Operator) (right : Expr)
| EGrouping (expr : Expr)
| EVariable (name : String)
| EAssign (name : String) (value : Expr)
deriving DecidableEq, Repr

inductive Stmt where
| SPrint (expr : Expr)
| SExpression (expr : Expr)
| SVarDecl (name : String) (initializer : Option Expr)
deriving DecidableEq, Repr

structure AST where
  top : List Stmt
deriving DecidableEq, Repr

/-! ## Runtime values (src/src/evaluate.rs) -/

inductive LoxValue where
| LNil
| LBoolean (b : Bool)
| LNumber (v : ℚ)
| LString (s : String)
deriving DecidableEq, Repr

/-- `LoxValue::is_truthy`: `LNil` and `LBoolean(false)` are falsy,
everything else truthy. -/
def LoxValue.is_truthy : LoxValue → Bool
| .LNil => false
| .LBoolean false => false
| _ => true

/-- Rust `Display` of an `f64`: an integral value prints with no
fractional part (`3.0f64` displays as `"3"`). Only integral values are
displayed in this development; the non-integral branch is unused. -/
def fmtF64Display (q : ℚ) : String :=
  if q.den = 1 then toString q.num else toString q

/-- Rust `Debug` of an `f64`: an integral value prints with a trailing
`.0` (`3.0f64` debug-prints as `"3.0"`). Only integral values are
debug-printed in this development; the non-integral branch is unused. -/
def fmtF64Debug (q : ℚ) : String :=
  if q.den = 1 then toString q.num ++ ".0" else toString q

/-- Rust `Debug` of a `String` wraps it in double quotes. (Escape
sequences inside the text are not modelled; no lexeme this development
formats contains one.) -/
def rustDebugString (s : String) : String :=
  "\"" ++ s ++ "\""

/-- The `Display` impl for `LoxValue` in evaluate.rs. -/
def LoxValue.displayFmt : LoxValue → String
| .LNil => "nil"
| .LBoolean b => toString b
| .LNumber v => fmtF64Display v
| .LString s => s

/-- The derived `Debug` for `LoxValue` (what `println!("{value:?}")`
prints in `execute_statement`). -/
def LoxValue.debugFmt : LoxValue → String
| .LNil => "LNil"
| .LBoolean b => "LBoolean(" ++ toString b ++ ")"
| .LNumber v => "LNumber(" ++ fmtF64Debug v ++ ")"
| .LString s => "LString(" ++ rustDebugString s ++ ")"

/-- The evaluator's error enum in evaluate.rs: it has exactly these
three variants — in particular there is no `UndefinedVariable`
variant. -/
inductive EvalError where
| ZeroDivision
| UnsupportedBinOp (l : LoxValue) (op : Operator) (r : LoxValue)
| UnsupportedUnaryOp (op : Operator) (v : LoxValue)
deriving DecidableEq, Repr

/-! ## Environment (src/src/environ.rs)

`Environment<V>` is a scope with an optional parent and an owned
`HashMap` of variables. `declare`, `lookup` and `assign` in the source
all operate on `self.vars` only: none of them walks the parent chain,
and `assign` is a plain `insert` with no presence check (its comment
reads "change value of an *already declared* variable … needs error
checking"). -/

/-- `HashMap::insert`: overwrite the binding if the key is present,
otherwise add it. -/
def varsInsert : List (String × LoxValue) → String → LoxValue → List (String × LoxValue)
| [], n, v => [(n, v)]
| (k, w) :: rest, n, v =>
    if k = n then (k, v) :: rest else (k, w) :: varsInsert rest n v

/-- `HashMap::get` on an association list. -/
def varsGet : List (String × LoxValue) → String → Option LoxValue
| [], _ => none
| (k, w) :: rest, n => if k = n then some w else varsGet rest n

inductive Env where
| mk (parent : Option Env) (vars : List (String × LoxValue)) : Env

def Env.parent : Env → Option Env
| .mk p _ => p

def Env.vars : Env → List (String × LoxValue)
| .mk _ v => v

/-- `Environment::declare`: insert into the current scope's map. -/
def Env.declare (e : Env) (name : String) (v : LoxValue) : Env :=
  .mk e.parent (varsInsert e.vars name v)

/-- `Environment::lookup`: read the current scope's map only — the
source does not recurse into `parent`. -/
def Env.lookup (e : Env) (name : String) : Option LoxValue :=
  varsGet e.vars name

/-- `Environment::assign`: exactly `insert` into the current scope's
map — no presence check and no walk up the chain. -/
def Env.assign (e : Env) (name : String) (v : LoxValue) : Env :=
  .mk e.parent (varsInsert e.vars name v)

/-- The fresh top-level environment `Environment::new(None)`. -/
def Env.fresh : Env := .mk none []

/-! ## Numeric literal parsing

Model of `str::parse::<f64>()` restricted to the lexeme shapes the
scanners produce: a run of digits optionally followed by `.` and more
digits (possibly none, as in `"12."`, which Rust parses as `12.0`). -/

def digitsVal (cs : List Char) : Nat :=
  cs.foldl (fun acc c => acc * 10 + (c.toNat - '0'.toNat)) 0

def parseF64 (s : String) : Option ℚ :=
  let cs := s.data
  let intPart := cs.takeWhile Char.isDigit
  let rest := cs.dropWhile Char.isDigit
  if intPart.isEmpty then none
  else
    match rest with
    | [] => some (digitsVal intPart : ℚ)
    | '.' :: frac =>
        if frac.all Char.isDigit then
          some ((digitsVal intPart : ℚ) + (digitsVal frac : ℚ) / ((10 : ℚ) ^ frac.length))
        else none
    | _ => none

/-! ## Evaluator (src/src/evaluate.rs) -/

/-- Result of `evaluate_expression`: a value together with the (possibly
mutated) environment, a returned `Err`, or a Rust panic. -/
inductive EResV where
| ok (v : LoxValue) (env : Env)
| err (e : EvalError)
| panic (msg : String)

/-- Result of statement execution: the mutated environment plus the
lines printed (in order), a returned `Err`, or a Rust panic. Output
already printed before a later error has been flushed by the real
program; no claim below depends on it, so the `err`/`panic` cases do
not carry it. -/
inductive EResS where
| ok (env : Env) (out : List String)
| err (e : EvalError)
| panic (msg : String)

/-- `evaluate_expression` from evaluate.rs, match arms in source order.
`EVariable` does `environ.lookup(name).unwrap()` — a panic when the
name is absent (the current scope's map is all `lookup` reads). -/
def evaluate_expression : Expr → Env → EResV
| .ENumber value, env =>
    match parseF64 value with
    | some q => .ok (.LNumber q) env
    | none => .panic "ENumber value.parse().unwrap() failed"
| .EString value, env => .ok (.LString value) env
| .EBool value, env => .ok (.LBoolean value) env
| .ENil, env => .ok .LNil env
| .EVariable name, env =>
    match env.lookup name with
    | some v => .ok v env
    | none => .panic "called Option::unwrap() on a None value"
| .EBinary left op right, env =>
    match evaluate_expression left env with
    | .err e => .err e
    | .panic m => .panic m
    | .ok lv env1 =>
      match evaluate_expression right env1 with
      | .err e => .err e
      | .panic m => .panic m
      | .ok rv env2 =>
        match lv, op, rv with
        | .LNumber x, .OAdd, .LNumber y => .ok (.LNumber (x + y)) env2
        | .LNumber x, .OSub, .LNumber y => .ok (.LNumber (x - y)) env2
        | .LNumber x, .OMul, .LNumber y => .ok (.LNumber (x * y)) env2
        | .LNumber x, .ODiv, .LNumber y =>
            if y = 0 then .err .ZeroDivision else .ok (.LNumber (x / y)) env2
        | .LNumber x, .OLt, .LNumber y => .ok (.LBoolean (decide (x < y))) env2
        | .LNumber x, .OLe, .LNumber y => .ok (.LBoolean (decide (x ≤ y))) env2
        | .LNumber x, .OGt, .LNumber y => .ok (.LBoolean (decide (x > y))) env2
        | .LNumber x, .OGe, .LNumber y => .ok (.LBoolean (decide (x ≥ y))) env2
        | .LString x, .OAdd, .LString y => .ok (.LString (x ++ y)) env2
        | x, .OEq, y => .ok (.LBoolean (decide (x = y))) env2
        | x, .ONe, y => .ok (.LBoolean (decide (x ≠ y))) env2
        | lv, op, rv => .err (.UnsupportedBinOp lv op rv)
| .EUnary op right, env =>
    match evaluate_expression right env with
    | .err e => .err e
    | .panic m => .panic m
    | .ok rv env1 =>
      match op, rv with
      | .OSub, .LNumber x => .ok (.LNumber (-x)) env1
      | .ONot, x => .ok (.LBoolean (!x.is_truthy)) env1
      | op, rv => .err (.UnsupportedUnaryOp op rv)
| .EGrouping e, env => evaluate_expression e env
| .EAssign name value, env =>
    match evaluate_expression value env with
    | .err e => .err e
    | .panic m => .panic m
    | .ok v env1 => .ok v (env1.assign name v)

/-- `execute_statement` from evaluate.rs. `SPrint` prints with
`println!("{value:?}")`, i.e. the Debug rendering of the value. -/
def execute_statement : Stmt → Env → EResS
| .SPrint expr, env =>
    match evaluate_expression expr env with
    | .err e => .err e
    | .panic m => .panic m
    | .ok v env1 => .ok env1 [v.debugFmt]
| .SExpression expr, env =>
    match evaluate_expression expr env with
    | .err e => .err e
    | .panic m => .panic m
    | .ok _ env1 => .ok env1 []
| .SVarDecl name initializer, env =>
    match
      (match initializer with
       | some e => evaluate_expression e env
       | none => .ok .LNil env) with
    | .err e => .err e
    | .panic m => .panic m
    | .ok iv env1 => .ok (env1.declare name iv) []

/-- `execute_statements`: run statements in sequence, fail-fast. -/
def execute_statements : List Stmt → Env → EResS
| [], env => .ok env []
| stmt :: rest, env =>
    match execute_statement stmt env with
    | .err e => .err e
    | .panic m => .panic m
    | .ok env1 out1 =>
      match execute_statements rest env1 with
      | .err e => .err e
      | .panic m => .panic m
      | .ok env2 out2 => .ok env2 (out1 ++ out2)

/-! ## Tokens

`tokenize.rs` spells the variants without a `T` prefix (`Plus`,
`Semicolon`, …) and has no `TIgnore`; `tokenize2.rs` spells them with a
`T` prefix (and `TSemiColon`); `parser.rs` consumes them under the
`T`-prefixed spellings. One enum serves all three modules here. -/

inductive TokenType where
| TLeftParen | TRightParen | TLeftBrace | TRightBrace
| TComma | TDot | TMinus | TPlus | TSemicolon | TSlash | TStar
| TBang | TBangEqual | TEqual | TEqualEqual
| TGreater | TGreaterEqual | TLess | TLessEqual
| TIdentifier | TString | TNumber
| TAnd | TClass | TElse | TFalse | TFun | TFor | TIf | TNil | TOr
| TPrint | TReturn | TSuper | TThis | TTrue | TVar | TWhile
| TIgnore | TEof
deriving DecidableEq, Repr

/-- `Literal` from tokenize.rs (`Str`, `Num`, `None`). -/
inductive Literal where
| LitStr (s : String)
| LitNum (v : ℚ)
| LitNone
deriving DecidableEq, Repr

/-- `Token` from tokenize.rs: kind, lexeme, literal, line. -/
structure RsToken where
  toktype : TokenType
  lexeme : String
  literal : Literal
  line : Nat
deriving DecidableEq, Repr

/-- `Tokens` from tokenize.rs (the type `parser.rs` consumes). -/
structure Tokens where
  tokens : List RsToken
deriving DecidableEq, Repr

/-- `Token` from tokenize2.rs: kind, lexeme, line (no literal field). -/
structure Token2 where
  toktype : TokenType
  lexeme : String
  line : Nat
deriving DecidableEq, Repr

/-- The substring of `l` from character position `a` (inclusive) to `b`
(exclusive): the model of Rust's `&s[a..b]` slicing. -/
def sliceStr (l : List Char) (a b : Nat) : String :=
  ((l.drop a).take (b - a)).asString

/-! ## The Scanner in src/src/tokenize.rs

The cursor-based scanner (`start`/`current`/`line` over a `Vec<char>`).
Its `scan_token` hits `todo!()` on an unexplained character and its
`string` hits `todo!("Unterminated string")`; both are modelled as
`.error` (a Rust panic). Inner `while` loops take fuel
`source.length + 1`, an upper bound on the characters they can consume. -/

structure Scanner where
  source : List Char
  tokens : List RsToken
  start : Nat
  current : Nat
  line : Nat

def Scanner.is_at_end (sc : Scanner) : Bool :=
  sc.source.length ≤ sc.current

/-- `peek`: the current character, `'\x00'` at end of input. -/
def Scanner.peekc (sc : Scanner) : Char :=
  sc.source.getD sc.current '\x00'

/-- `advance`: read `source[current]` and step the cursor; `none` models
the index-out-of-bounds panic (never reached behind an `is_at_end`
check). -/
def Scanner.advance (sc : Scanner) : Option (Char × Scanner) :=
  match sc.source.get? sc.current with
  | some c => some (c, { sc with current := sc.current + 1 })
  | none => none

/-- `matches`: consume the current character iff it equals `expected`. -/
def Scanner.matchesc (sc : Scanner) (expected : Char) : Bool × Scanner :=
  if sc.is_at_end then (false, sc)
  else if sc.source.getD sc.current '\x00' ≠ expected then (false, sc)
  else (true, { sc with current := sc.current + 1 })

def Scanner.add_token_with_literal (sc : Scanner) (tt : TokenType) (lit : Literal) : Scanner :=
  { sc with tokens := sc.tokens ++ [⟨tt, sliceStr sc.source sc.start sc.current, lit, sc.line⟩] }

def Scanner.add_token (sc : Scanner) (tt : TokenType) : Scanner :=
  sc.add_token_with_literal tt .LitNone

/-- The body of `string`'s first loop: consume up to the closing quote
or end of input, bumping `line` at each newline. -/
def Scanner.stringLoop : Nat → Scanner → Scanner
| 0, sc => sc
| fuel + 1, sc =>
    if sc.peekc ≠ '"' ∧ ¬ sc.is_at_end then
      let sc1 := if sc.peekc = '\n' then { sc with line := sc.line + 1 } else sc
      Scanner.stringLoop fuel { sc1 with current := sc1.current + 1 }
    else sc

/-- `string` from tokenize.rs: `todo!("Unterminated string")` when the
input ends before a closing quote. -/
def Scanner.scanStringTok (sc : Scanner) : Except String Scanner :=
  let sc1 := Scanner.stringLoop (sc.source.length + 1) sc
  if sc1.is_at_end then .error "todo: Unterminated string"
  else
    match sc1.advance with
    | none => .error "index out of bounds"
    | some (_, sc2) =>
        let value := sliceStr sc2.source (sc2.start + 1) (sc2.current - 1)
        .ok (sc2.add_token_with_literal .TString (.LitStr value))

/-- A maximal run of decimal digits. -/
def Scanner.digitLoop : Nat → Scanner → Scanner
| 0, sc => sc
| fuel + 1, sc =>
    if (sc.peekc).isDigit then Scanner.digitLoop fuel { sc with current := sc.current + 1 }
    else sc

/-- `number` from tokenize.rs: digits, then optionally `.` and more
digits; the lexeme is parsed with `.parse().unwrap()`. -/
def Scanner.scanNumberTok (sc : Scanner) : Except String Scanner :=
  let sc1 := Scanner.digitLoop (sc.source.length + 1) sc
  let sc2 :=
    if sc1.peekc = '.' then
      Scanner.digitLoop (sc1.source.length + 1) { sc1 with current := sc1.current + 1 }
    else sc1
  let lexeme := sliceStr sc2.source sc2.start sc2.current
  match parseF64 lexeme with
  | some q => .ok (sc2.add_token_with_literal .TNumber (.LitNum q))
  | none => .error "Number lexeme.parse().unwrap() failed"

/-- A maximal run of alphanumerics/underscore. (Lean's `isAlphanum` is
ASCII; Rust's `is_alphanumeric` is Unicode — every input scanned in this
development is ASCII, where they agree.) -/
def Scanner.identLoop : Nat → Scanner → Scanner
| 0, sc => sc
| fuel + 1, sc =>
    if (sc.peekc).isAlphanum ∨ sc.peekc = '_' then
      Scanner.identLoop fuel { sc with current := sc.current + 1 }
    else sc

/-- The fixed keyword table in `identifier`. -/
def keywordType : String → TokenType
| "and" => .TAnd
| "class" => .TClass
| "else" => .TElse
| "false" => .TFalse
| "for" => .TFor
| "fun" => .TFun
| "if" => .TIf
| "nil" => .TNil
| "or" => .TOr
| "print" => .TPrint
| "return" => .TReturn
| "super" => .TSuper
| "this" => .TThis
| "true" => .TTrue
| "var" => .TVar
| "while" => .TWhile
| _ => .TIdentifier

/-- `identifier` from tokenize.rs. -/
def Scanner.scanIdentTok (sc : Scanner) : Scanner :=
  let sc1 := Scanner.identLoop (sc.source.length + 1) sc
  let lexeme := sliceStr sc1.source sc1.start sc1.current
  sc1.add_token (keywordType lexeme)

/-- The `//`-comment loop: consume up to (not including) the next
newline or end of input. -/
def Scanner.commentLoop : Nat → Scanner → Scanner
| 0, sc => sc
| fuel + 1, sc =>
    if sc.peekc ≠ '\n' ∧ ¬ sc.is_at_end then
      Scanner.commentLoop fuel { sc with current := sc.current + 1 }
    else sc

/-- `scan_token` from tokenize.rs, dispatch in source order; the final
`_ => todo!()` arm is a panic. -/
def Scanner.scan_token (sc : Scanner) : Except String Scanner :=
  match sc.advance with
  | none => .error "index out of bounds"
  | some (c, sc1) =>
    match c with
    | '(' => .ok (sc1.add_token .TLeftParen)
    | ')' => .ok (sc1.add_token .TRightParen)
    | '{' => .ok (sc1.add_token .TLeftBrace)
    | '}' => .ok (sc1.add_token .TRightBrace)
    | ',' => .ok (sc1.add_token .TComma)
    | '.' => .ok (sc1.add_token .TDot)
    | '-' => .ok (sc1.add_token .TMinus)
    | '+' => .ok (sc1.add_token .TPlus)
    | ';' => .ok (sc1.add_token .TSemicolon)
    | '*' => .ok (sc1.add_token .TStar)
    | '!' =>
        let p := sc1.matchesc '='
        .ok (p.2.add_token (if p.1 then .TBangEqual else .TBang))
    | '=' =>
        let p := sc1.matchesc '='
        .ok (p.2.add_token (if p.1 then .TEqualEqual else .TEqual))
    | '<' =>
        let p := sc1.matchesc '='
        .ok (p.2.add_token (if p.1 then .TLessEqual else .TLess))
    | '>' =>
        let p := sc1.matchesc '='
        .ok (p.2.add_token (if p.1 then .TGreaterEqual else .TGreater))
    | '/' =>
        let p := sc1.matchesc '/'
        if p.1 then .ok (Scanner.commentLoop (p.2.source.length + 1) p.2)
        else .ok (p.2.add_token .TSlash)
    | ' ' => .ok sc1
    | '\r' => .ok sc1
    | '\t' => .ok sc1
    | '\n' => .ok { sc1 with line := sc1.line + 1 }
    | '"' => sc1.scanStringTok
    | c =>
        if c.isDigit then sc1.scanNumberTok
        else if c.isAlpha then .ok sc1.scanIdentTok
        else .error "todo: unexpected character"

/-- The `scan_tokens` driver loop: `start := current`, then one
`scan_token`, until end of input. Each `scan_token` consumes at least
one character (its first action is `advance`), so fuel
`source.length + 1` is never exhausted. -/
def Scanner.scanLoop : Nat → Scanner → Except String Scanner
| 0, _ => .error "out of fuel"
| fuel + 1, sc =>
    if sc.is_at_end then .ok sc
    else
      match Scanner.scan_token { sc with start := sc.current } with
      | .error m => .error m
      | .ok sc1 => Scanner.scanLoop fuel sc1

/-- `Scanner::scan_tokens` on a source string: run the loop from a fresh
scanner, then append the single end-of-input token carrying the final
`line`. -/
def Scanner.scan_tokens (s : String) : Except String Tokens :=
  match Scanner.scanLoop (s.length + 1)
      { source := s.data, tokens := [], start := 0, current := 0, line := 1 } with
  | .error m => .error m
  | .ok sc => .ok ⟨sc.tokens ++ [⟨.TEof, "", .LitNone, sc.line⟩]⟩

/-- The public `tokenize` in src/src/tokenize.rs (the function
`run_interp` calls): it ignores its source argument, never constructs a
`Scanner`, and returns `Ok` with an empty token vector. Its `Error` is
the empty struct `Error {}`, modelled by `Unit`. -/
def tokenize (_source : String) : Except Unit Tokens :=
  .ok ⟨[]⟩

/-! ## The scanner in src/src/tokenize2.rs

A peekable-iterator scanner over `char_indices`. Its `ScanError` enum
(`UnexpectedCharacter`, `UnterminatedString`) is declared but never
constructed: `scan_tokens` has a single `Ok` return. Its `line`
variable is initialised to 1 and never incremented. `scan_token` tries
the six sub-scanners in order and returns `None` when none matches, at
which point the driver loop stops without consuming the offending
character. -/

inductive ScanError where
| UnexpectedCharacter (line : Nat) (ch : Char)
| UnterminatedString (line : Nat)
deriving DecidableEq, Repr

structure Tokens2 where
  tokens : List Token2
deriving DecidableEq, Repr

/-- The peekable `CharIndices` stream: position-annotated characters.
Positions are character indices (Rust's are byte offsets; they agree on
the ASCII inputs scanned here). -/
abbrev Chars := List (Nat × Char)

def charIndices (s : String) : Chars :=
  s.data.enum

/-- `accept` from tokenize2.rs: consume one character, produce the token
type with the range `start..n+1`. -/
def accept2 (chars : Chars) (toktype : TokenType) (start : Nat) :
    Option (TokenType × (Nat × Nat) × Chars) :=
  match chars with
  | [] => none
  | (n, _) :: rest => some (toktype, (start, n + 1), rest)

/-- `peek` from tokenize2.rs: does the next character equal `ch`? -/
def peek2 (chars : Chars) (ch : Char) : Bool :=
  match chars with
  | (_, c) :: _ => c = ch
  | [] => false

def scan_simple_symbol (chars : Chars) : Option (TokenType × (Nat × Nat) × Chars) :=
  match chars with
  | [] => none
  | (start, ch) :: _ =>
    match ch with
    | '+' => accept2 chars .TPlus start
    | '-' => accept2 chars .TMinus start
    | '*' => accept2 chars .TStar start
    | '(' => accept2 chars .TLeftParen start
    | ')' => accept2 chars .TRightParen start
    | '{' => accept2 chars .TLeftBrace start
    | '}' => accept2 chars .TRightBrace start
    | ';' => accept2 chars .TSemicolon start
    | ',' => accept2 chars .TComma start
    | '.' => accept2 chars .TDot start
    | _ => none

def scan_compare_symbol (chars : Chars) : Option (TokenType × (Nat × Nat) × Chars) :=
  match chars with
  | [] => none
  | (start, ch) :: rest =>
    match ch with
    | '<' =>
        if peek2 rest '=' then accept2 rest .TLessEqual start
        else some (.TLess, (start, start + 1), rest)
    | '>' =>
        if peek2 rest '=' then accept2 rest .TGreaterEqual start
        else some (.TGreater, (start, start + 1), rest)
    | '=' =>
        if peek2 rest '=' then accept2 rest .TEqualEqual start
        else some (.TEqual, (start, start + 1), rest)
    | '!' =>
        if peek2 rest '=' then accept2 rest .TBangEqual start
        else some (.TBang, (start, start + 1), rest)
    | _ => none

/-- The whitespace loop of `ignore_whitespace`: consume whitespace,
recording the position of the last character consumed. (Lean's
`Char.isWhitespace` covers space, tab, carriage return and newline;
Rust's covers Unicode White_Space — they agree on ASCII, and no result
below depends on the predicate's extension.) -/
def wsLoop : Chars → Nat → Nat × Chars
| [], e => (e, [])
| (n, ch) :: rest, e =>
    if ch.isWhitespace then wsLoop rest n else (e, (n, ch) :: rest)

def ignore_whitespace (chars : Chars) : Option (TokenType × (Nat × Nat) × Chars) :=
  match chars with
  | [] => none
  | (start, ch) :: _ =>
    if ch.isWhitespace then
      let p := wsLoop chars (start + 1)
      some (.TIgnore, (start, p.1 + 1), p.2)
    else none

/-- A maximal digit run, recording the position of the last digit. -/
def digits2Loop : Chars → Nat → Nat × Chars
| [], e => (e, [])
| (n, ch) :: rest, e =>
    if ch.isDigit then digits2Loop rest n else (e, (n, ch) :: rest)

def scan_number2 (chars : Chars) : Option (TokenType × (Nat × Nat) × Chars) :=
  match chars with
  | [] => none
  | (start, ch) :: _ =>
    if ch.isDigit then
      let p := digits2Loop chars start
      match p.2 with
      | (_, '.') :: rest2 =>
          let q := digits2Loop rest2 p.1
          some (.TNumber, (start, q.1 + 1), q.2)
      | _ => some (.TNumber, (start, p.1 + 1), p.2)
    else none

/-- The identifier-continuation loop (`is_alphanumeric() || '_'`). -/
def identChars2Loop : Chars → Nat → Nat × Chars
| [], e => (e, [])
| (n, ch) :: rest, e =>
    if ch.isAlphanum ∨ ch = '_' then identChars2Loop rest n else (e, (n, ch) :: rest)

/-- `scan_identifier` from tokenize2.rs. It always yields
`TIdentifier`: there is no keyword lookup in this scanner. -/
def scan_identifier2 (chars : Chars) : Option (TokenType × (Nat × Nat) × Chars) :=
  match chars with
  | [] => none
  | (start, ch) :: _ =>
    if ch.isAlpha ∨ ch = '_' then
      let p := identChars2Loop chars start
      some (.TIdentifier, (start, p.1 + 1), p.2)
    else none

/-- The string-body loop: consume characters, recording the last
position, stopping after a closing quote. -/
def str2Loop : Chars → Nat → Nat × Chars
| [], e => (e, [])
| (n, ch) :: rest, _ =>
    if ch = '"' then (n, rest) else str2Loop rest n

/-- `scan_string` from tokenize2.rs: on a `"` it consumes to the next
quote **or to end of input**, and yields a `TString` token either way —
there is no unterminated-string error path. -/
def scan_string2 (chars : Chars) : Option (TokenType × (Nat × Nat) × Chars) :=
  match chars with
  | [] => none
  | (start, ch) :: rest =>
    if ch = '"' then
      let p := str2Loop rest (start + 1)
      some (.TString, (start, p.1 + 1), p.2)
    else none

/-- `scan_token` from tokenize2.rs: the `or_else` chain over the six
sub-scanners, in source order. Note there is no case for `/` anywhere:
neither a slash token nor a comment is recognised. -/
def scan_token2 (chars : Chars) : Option (TokenType × (Nat × Nat) × Chars) :=
  match scan_simple_symbol chars with
  | some r => some r
  | none =>
    match scan_compare_symbol chars with
    | some r => some r
    | none =>
      match ignore_whitespace chars with
      | some r => some r
      | none =>
        match scan_number2 chars with
        | some r => some r
        | none =>
          match scan_identifier2 chars with
          | some r => some r
          | none => scan_string2 chars

/-- The `while let` loop of `scan_tokens` in tokenize2.rs: run
`scan_token` until it returns `None`, pushing every non-`TIgnore`
token. `line` is threaded through unchanged — the source never
increments it. Fuel: each `some` step consumes at least one character
(`scan_token2_spec` below), so `chars.length + 1` is never exhausted. -/
def scan2Loop (src : List Char) (line : Nat) : Nat → Chars → List Token2 → List Token2
| 0, _, acc => acc
| fuel + 1, chars, acc =>
    match scan_token2 chars with
    | none => acc
    | some (toktype, r, chars1) =>
        scan2Loop src line fuel chars1
          (if toktype = .TIgnore then acc else acc ++ [⟨toktype, sliceStr src r.1 r.2, line⟩])

/-- `scan_tokens` from tokenize2.rs: `let mut line = 1` (never
incremented), the loop, then push the single `TEof` token. The only
return statement is `Ok`; the error list is never built. -/
def scan_tokens2 (s : String) : Except (List ScanError) Tokens2 :=
  let line := 1
  .ok ⟨scan2Loop s.data line (s.data.length + 1) (charIndices s) [] ++ [⟨.TEof, "", line⟩]⟩

/-- The token list `scan_tokens2` produces (it is always `Ok`). -/
def scan2TokensList (s : String) : List Token2 :=
  match scan_tokens2 s with
  | .ok ts => ts.tokens
  | .error _ => []

/-! ## Parser (src/src/parser.rs)

Recursive descent over `Tokens` with a cursor `n`. `syntax_error`
indexes `self.tokens[self.n]` (a panic when the cursor is past the
end), and `parse_assignment` hits `panic!("invalid assignment target")`
when the left side of `=` is not a variable. Recursion is modelled with
fuel: every cycle in the call graph (`expression → assignment → binary
→ unary → primary → expression`, and the `statements` loop) consumes at
least one token per round, so the budget `(tokens + 1) * 8` chosen in
`parse` is never exhausted. -/

structure PState where
  tokens : List RsToken
  n : Nat
deriving Repr

inductive PRes (α : Type) where
| ok (a : α) (p : PState)
| err (line : Nat) (msg : String)
| panic (msg : String)

/-- `at_end`: cursor past the end, or resting on the `TEof` sentinel. -/
def PState.at_end (p : PState) : Bool :=
  if p.tokens.length ≤ p.n then true
  else
    match p.tokens.get? p.n with
    | some t => t.toktype = .TEof
    | none => true

/-- `accept`: consume the next token iff it has the given type. -/
def PState.accept (p : PState) (toktype : TokenType) : Bool × PState :=
  let hit : Bool :=
    !p.at_end &&
      (match p.tokens.get? p.n with
       | some t => decide (t.toktype = toktype)
       | none => false)
  if hit then (true, { p with n := p.n + 1 }) else (false, p)

/-- `accepts`: consume the next token iff its type is in the list. -/
def PState.accepts (p : PState) (toktypes : List TokenType) : Bool × PState :=
  let hit : Bool :=
    !p.at_end &&
      (match p.tokens.get? p.n with
       | some t => decide (t.toktype ∈ toktypes)
       | none => false)
  if hit then (true, { p with n := p.n + 1 }) else (false, p)

/-- `syntax_error`: reads `self.tokens[self.n]` — `none` models the
index panic when the cursor is past the end. The message is
`format!("{msg} at {:?}", lexeme)`. -/
def PState.syntax_err (p : PState) (msg : String) : Option (Nat × String) :=
  match p.tokens.get? p.n with
  | some t => some (t.line, msg ++ " at " ++ rustDebugString t.lexeme)
  | none => none

/-- `consume`: require the next token to match or produce the syntax
error. -/
def PState.consume (p : PState) (toktype : TokenType) (msg : String) : PRes Unit :=
  let r := p.accept toktype
  if r.1 then .ok () r.2
  else
    match p.syntax_err msg with
    | some lm => .err lm.1 lm.2
    | none => .panic "index out of bounds"

/-- `last_token` (`self.tokens[self.n - 1]`); `none` models the panic on
underflow or out-of-range. -/
def PState.last_token (p : PState) : Option RsToken :=
  if p.n = 0 then none else p.tokens.get? (p.n - 1)

def PState.last_lexeme (p : PState) : Option String :=
  (p.last_token).map RsToken.lexeme

/-- `From<&Token> for Operator`; `none` models the
`panic!("Not an operator")` arm. -/
def operatorFrom (tok : RsToken) : Option Operator :=
  match tok.toktype with
  | .TPlus => some .OAdd
  | .TMinus => some .OSub
  | .TStar => some .OMul
  | .TSlash => some .ODiv
  | .TLess => some .OLt
  | .TLessEqual => some .OLe
  | .TGreater => some .OGt
  | .TGreaterEqual => some .OGe
  | .TEqualEqual => some .OEq
  | .TBangEqual => some .ONe
  | .TAnd => some .OAnd
  | .TOr => some .OOr
  | .TBang => some .ONot
  | _ => none

/-- Rust `&lexeme[1..lexeme.len() - 1]` on a string lexeme: drop the
surrounding quotes. -/
def stripQuotes (s : String) : String :=
  ((s.data.drop 1).take (s.data.length - 2)).asString

mutual

def parse_expression : Nat → PState → PRes Expr
| 0, _ => .panic "out of fuel"
| fuel + 1, p => parse_assignment fuel p

def parse_assignment : Nat → PState → PRes Expr
| 0, _ => .panic "out of fuel"
| fuel + 1, p =>
    match parse_binary fuel p with
    | .err l m => .err l m
    | .panic m => .panic m
    | .ok expr p1 =>
      let r := p1.accept .TEqual
      if r.1 then
        match parse_assignment fuel r.2 with
        | .err l m => .err l m
        | .panic m => .panic m
        | .ok value p2 =>
          match expr with
          | .EVariable name => .ok (.EAssign name value) p2
          | _ => .panic "invalid assignment target"
      else .ok expr p1

def parse_binary : Nat → PState → PRes Expr
| 0, _ => .panic "out of fuel"
| fuel + 1, p =>
    match parse_unary fuel p with
    | .err l m => .err l m
    | .panic m => .panic m
    | .ok left p1 =>
      let r := p1.accepts [.TPlus, .TMinus, .TStar, .TSlash, .TLess, .TLessEqual,
        .TGreater, .TGreaterEqual, .TEqualEqual, .TBangEqual]
      if r.1 then
        match r.2.last_token with
        | none => .panic "index out of bounds"
        | some tok =>
          match operatorFrom tok with
          | none => .panic "Not an operator"
          | some op =>
            match parse_unary fuel r.2 with
            | .err l m => .err l m
            | .panic m => .panic m
            | .ok right p2 => .ok (.EBinary left op right) p2
      else .ok left p1

def parse_unary : Nat → PState → PRes Expr
| 0, _ => .panic "out of fuel"
| fuel + 1, p =>
    let r := p.accepts [.TMinus, .TBang]
    if r.1 then
      match r.2.last_token with
      | none => .panic "index out of bounds"
      | some tok =>
        match operatorFrom tok with
        | none => .panic "Not an operator"
        | some op =>
          match parse_expression fuel r.2 with
          | .err l m => .err l m
          | .panic m => .panic m
          | .ok e p1 => .ok (.EUnary op e) p1
    else parse_primary fuel r.2

def parse_primary : Nat → PState → PRes Expr
| 0, _ => .panic "out of fuel"
| fuel + 1, p =>
    let r1 := p.accept .TNumber
    if r1.1 then
      match r1.2.last_lexeme with
      | none => .panic "index out of bounds"
      | some lx => .ok (.ENumber lx) r1.2
    else
      let r2 := p.accept .TString
      if r2.1 then
        match r2.2.last_lexeme with
        | none => .panic "index out of bounds"
        | some lx => .ok (.EString (stripQuotes lx)) r2.2
      else
        let r3 := p.accept .TNil
        if r3.1 then .ok .ENil r3.2
        else
          let r4 := p.accept .TTrue
          if r4.1 then .ok (.EBool true) r4.2
          else
            let r5 := p.accept .TFalse
            if r5.1 then .ok (.EBool false) r5.2
            else
              let r6 := p.accept .TLeftParen
              if r6.1 then
                match parse_expression fuel r6.2 with
                | .err l m => .err l m
                | .panic m => .panic m
                | .ok e p1 =>
                  match p1.consume .TRightParen "Expect ')' after expression." with
                  | .err l m => .err l m
                  | .panic m => .panic m
                  | .ok _ p2 => .ok (.EGrouping e) p2
              else
                let r7 := p.accept .TIdentifier
                if r7.1 then
                  match r7.2.last_lexeme with
                  | none => .panic "index out of bounds"
                  | some lx => .ok (.EVariable lx) r7.2
                else
                  match p.syntax_err "Expected primary" with
                  | some lm => .err lm.1 lm.2
                  | none => .panic "index out of bounds"

end

def parse_var_declaration (fuel : Nat) (p : PState) : PRes Stmt :=
  match p.consume .TIdentifier "Expect variable name" with
  | .err l m => .err l m
  | .panic m => .panic m
  | .ok _ p1 =>
    match p1.last_lexeme with
    | none => .panic "index out of bounds"
    | some name =>
      let r := p1.accept .TEqual
      if r.1 then
        match parse_expression fuel r.2 with
        | .err l m => .err l m
        | .panic m => .panic m
        | .ok e p2 =>
          match p2.consume .TSemicolon "Expect ';' after variable declaration" with
          | .err l m => .err l m
          | .panic m => .panic m
          | .ok _ p3 => .ok (.SVarDecl name (some e)) p3
      else
        match r.2.consume .TSemicolon "Expect ';' after variable declaration" with
        | .err l m => .err l m
        | .panic m => .panic m
        | .ok _ p2 => .ok (.SVarDecl name none) p2

def parse_print_statement (fuel : Nat) (p : PState) : PRes Stmt :=
  match parse_expression fuel p with
  | .err l m => .err l m
  | .panic m => .panic m
  | .ok value p1 =>
    match p1.consume .TSemicolon "Expected ';' after value." with
    | .err l m => .err l m
    | .panic m => .panic m
    | .ok _ p2 => .ok (.SPrint value) p2

def parse_expression_statement (fuel : Nat) (p : PState) : PRes Stmt :=
  match parse_expression fuel p with
  | .err l m => .err l m
  | .panic m => .panic m
  | .ok value p1 =>
    match p1.consume .TSemicolon "Expected ';' after value." with
    | .err l m => .err l m
    | .panic m => .panic m
    | .ok _ p2 => .ok (.SExpression value) p2

def parse_statement (fuel : Nat) (p : PState) : PRes Stmt :=
  let r := p.accept .TPrint
  if r.1 then parse_print_statement fuel r.2
  else parse_expression_statement fuel r.2

def parse_declaration (fuel : Nat) (p : PState) : PRes Stmt :=
  let r := p.accept .TVar
  if r.1 then parse_var_declaration fuel r.2
  else parse_statement fuel r.2

def parse_statements : Nat → PState → PRes (List Stmt)
| 0, _ => .panic "out of fuel"
| fuel + 1, p =>
    if p.at_end then .ok [] p
    else
      match parse_declaration fuel p with
      | .err l m => .err l m
      | .panic m => .panic m
      | .ok s p1 =>
        match parse_statements fuel p1 with
        | .err l m => .err l m
        | .panic m => .panic m
        | .ok ss p2 => .ok (s :: ss) p2

def parse_top (fuel : Nat) (p : PState) : PRes AST :=
  match parse_statements fuel p with
  | .err l m => .err l m
  | .panic m => .panic m
  | .ok top p1 =>
    if ¬ p1.at_end then
      match p1.syntax_err "Unparsed input" with
      | some lm => .err lm.1 lm.2
      | none => .panic "index out of bounds"
    else .ok ⟨top⟩ p1

/-- `parse` from parser.rs: `Parser::new(tokens).parse_top()`. -/
def parse (ts : Tokens) : PRes AST :=
  parse_top ((ts.tokens.length + 1) * 8) ⟨ts.tokens, 0⟩

/-! ## Pipeline (src/src/main.rs) -/

/-- The top-level error enum in main.rs, restricted to the core stages
(`Read` wraps the excluded file reader). -/
inductive TopError where
| TokenizeE
| ParseE (line : Nat) (msg : String)
| EvaluateE (e : EvalError)
deriving DecidableEq, Repr

inductive RunRes where
| ok (env : Env) (out : List String)
| err (e : TopError)
| panic (msg : String)

/-- `run_interp` from main.rs against an interpreter whose top-level
environment is `env`: `tokenize` → `parse` → `Interpreter::evaluate`.
(`tokenize` here is the stubbed public function in tokenize.rs that the
pipeline actually calls.) The `out` list is the evaluator's print
output; the debug `println!`s in the drivers are not program output. -/
def run_interp (env : Env) (source : String) : RunRes :=
  match tokenize source with
  | .error _ => .err .TokenizeE
  | .ok toks =>
    match parse toks with
    | .err l m => .err (.ParseE l m)
    | .panic m => .panic m
    | .ok ast _ =>
      match execute_statements ast.top env with
      | .err e => .err (.EvaluateE e)
      | .panic m => .panic m
      | .ok env1 out => .ok env1 out

/-- The pipeline with the real cursor Scanner of tokenize.rs in place
of the stubbed `tokenize` (the composition `Scanner::scan_tokens` →
`parse` → `execute_statements`): the route on which a source text
actually reaches the parser and evaluator. -/
def run_scanned (source : String) (env : Env) : RunRes :=
  match Scanner.scan_tokens source with
  | .error m => .panic m
  | .ok toks =>
    match parse toks with
    | .err l m => .err (.ParseE l m)
    | .panic m => .panic m
    | .ok ast _ =>
      match execute_statements ast.top env with
      | .err e => .err (.EvaluateE e)
      | .panic m => .panic m
      | .ok env1 out => .ok env1 out

/-- Scan a source text with the Scanner of tokenize.rs and parse the
resulting tokens (a scan panic propagates as a panic). -/
def parse_source (s : String) : PRes AST :=
  match Scanner.scan_tokens s with
  | .ok ts => parse ts
  | .error m => .panic m

/-! ## Result projections (used to state theorems about components of
results whose types mention `Env`, which carries no decidable
equality). -/

def PRes.okVal {α : Type} : PRes α → Option α
| .ok a _ => some a
| _ => none

def PRes.errOf {α : Type} : PRes α → Option (Nat × String)
| .err l m => some (l, m)
| _ => none

def PRes.panicMsg {α : Type} : PRes α → Option String
| .panic m => some m
| _ => none

def EResV.valOf : EResV → Option LoxValue
| .ok v _ => some v
| _ => none

/-- The binding of `name` in the final environment of an expression
evaluation (`none` when the evaluation did not return a value). -/
def EResV.bindingOf (r : EResV) (name : String) : Option (Option LoxValue) :=
  match r with
  | .ok _ env => some (env.lookup name)
  | _ => none

def RunRes.output : RunRes → Option (List String)
| .ok _ out => some out
| _ => none

/-- The binding of `name` in the final environment of a run. -/
def RunRes.bindingOf (r : RunRes) (name : String) : Option (Option LoxValue) :=
  match r with
  | .ok env _ => some (env.lookup name)
  | _ => none

/-- Modelled from the spec: the "final line count" of an input — a
counter starting at 1, incremented once per newline. Stated from the
spec's words for comparison with the line number the scanner actually
records. -/
def finalLineCount (s : String) : Nat :=
  1 + s.data.count '\n'

/-- The three-statement program of the end-to-end scoping test. -/
def c1_source : String :=
  "var x = 1; x = x + 2; print x;"

/-- The token sequence the Scanner produces for `c1_source` (proved
below in `c1_run_eq`). -/
def c1_tokens : List RsToken :=
  [⟨.TVar, "var", .LitNone, 1⟩, ⟨.TIdentifier, "x", .LitNone, 1⟩,
   ⟨.TEqual, "=", .LitNone, 1⟩, ⟨.TNumber, "1", .LitNum 1, 1⟩,
   ⟨.TSemicolon, ";", .LitNone, 1⟩,
   ⟨.TIdentifier, "x", .LitNone, 1⟩, ⟨.TEqual, "=", .LitNone, 1⟩,
   ⟨.TIdentifier, "x", .LitNone, 1⟩, ⟨.TPlus, "+", .LitNone, 1⟩,
   ⟨.TNumber, "2", .LitNum 2, 1⟩, ⟨.TSemicolon, ";", .LitNone, 1⟩,
   ⟨.TPrint, "print", .LitNone, 1⟩, ⟨.TIdentifier, "x", .LitNone, 1⟩,
   ⟨.TSemicolon, ";", .LitNone, 1⟩, ⟨.TEof, "", .LitNone, 1⟩]

/-! # Lemmas

Consumption bounds for the tokenize2 sub-scanners: every `some` result
of `scan_token2` strictly shrinks the character stream (so the fuel in
`scan2Loop` is never exhausted), and never carries the `TEof` type. -/

theorem wsLoop_length_le : ∀ (cs : Chars) (e : Nat), (wsLoop cs e).2.length ≤ cs.length
| [], _ => Nat.le_refl _
| (n, ch) :: rest, e => by
    simp only [wsLoop]
    split
    · exact Nat.le_trans (wsLoop_length_le rest n) (Nat.le_succ _)
    · simp

theorem digits2Loop_length_le : ∀ (cs : Chars) (e : Nat), (digits2Loop cs e).2.length ≤ cs.length
| [], _ => Nat.le_refl _
| (n, ch) :: rest, e => by
    simp only [digits2Loop]
    split
    · exact Nat.le_trans (digits2Loop_length_le rest n) (Nat.le_succ _)
    · simp

theorem identChars2Loop_length_le :
    ∀ (cs : Chars) (e : Nat), (identChars2Loop cs e).2.length ≤ cs.length
| [], _ => Nat.le_refl _
| (n, ch) :: rest, e => by
    simp only [identChars2Loop]
    split
    · exact Nat.le_trans (identChars2Loop_length_le rest n) (Nat.le_succ _)
    · simp

theorem str2Loop_length_le : ∀ (cs : Chars) (e : Nat), (str2Loop cs e).2.length ≤ cs.length
| [], _ => Nat.le_refl _
| (n, ch) :: rest, e => by
    simp only [str2Loop]
    split
    · simp
    · exact Nat.le_trans (str2Loop_length_le rest n) (Nat.le_succ _)

theorem accept2_spec {cs : Chars} {tt0 tt : TokenType} {start : Nat} {r : Nat × Nat}
    {cs' : Chars} (h : accept2 cs tt0 start = some (tt, r, cs')) :
    tt = tt0 ∧ cs'.length < cs.length := by
  cases cs with
  | nil => simp [accept2] at h
  | cons hd rest =>
      obtain ⟨n, c⟩ := hd
      simp only [accept2, Option.some.injEq, Prod.mk.injEq] at h
      obtain ⟨h1, -, h3⟩ := h
      subst h1
      subst h3
      simp

theorem scan_simple_symbol_spec {cs : Chars} {tt : TokenType} {r : Nat × Nat} {cs' : Chars}
    (h : scan_simple_symbol cs = some (tt, r, cs')) :
    tt ≠ .TEof ∧ cs'.length < cs.length := by
  cases cs with
  | nil => simp [scan_simple_symbol] at h
  | cons hd rest =>
      obtain ⟨start, ch⟩ := hd
      simp only [scan_simple_symbol] at h
      split at h <;>
        first
          | simp at h
          | exact ⟨by rw [(accept2_spec h).1]; decide, (accept2_spec h).2⟩

theorem scan_compare_symbol_spec {cs : Chars} {tt : TokenType} {r : Nat × Nat} {cs' : Chars}
    (h : scan_compare_symbol cs = some (tt, r, cs')) :
    tt ≠ .TEof ∧ cs'.length < cs.length := by
  cases cs with
  | nil => simp [scan_compare_symbol] at h
  | cons hd rest =>
      obtain ⟨start, ch⟩ := hd
      simp only [scan_compare_symbol] at h
      split at h <;>
        first
          | simp at h
          | (split at h <;>
              first
                | (obtain ⟨h1, h2⟩ := accept2_spec h
                   exact ⟨by rw [h1]; decide, Nat.lt_trans h2 (Nat.lt_succ_self _)⟩)
                | (simp only [Option.some.injEq, Prod.mk.injEq] at h
                   obtain ⟨h1, -, h3⟩ := h
                   subst h1
                   subst h3
                   exact ⟨by decide, Nat.lt_succ_self _⟩))

theorem ignore_whitespace_spec {cs : Chars} {tt : TokenType} {r : Nat × Nat} {cs' : Chars}
    (h : ignore_whitespace cs = some (tt, r, cs')) :
    tt ≠ .TEof ∧ cs'.length < cs.length := by
  cases cs with
  | nil => simp [ignore_whitespace] at h
  | cons hd rest =>
      obtain ⟨start, ch⟩ := hd
      simp only [ignore_whitespace] at h
      split at h
      · next hws =>
          simp only [Option.some.injEq, Prod.mk.injEq] at h
          obtain ⟨h1, -, h3⟩ := h
          subst h1
          subst h3
          refine ⟨by decide, ?_⟩
          rw [wsLoop, if_pos hws]
          exact Nat.lt_succ_of_le (wsLoop_length_le rest start)
      · simp at h

theorem scan_number2_spec {cs : Chars} {tt : TokenType} {r : Nat × Nat} {cs' : Chars}
    (h : scan_number2 cs = some (tt, r, cs')) :
    tt ≠ .TEof ∧ cs'.length < cs.length := by
  cases cs with
  | nil => simp [scan_number2] at h
  | cons hd rest =>
      obtain ⟨start, ch⟩ := hd
      simp only [scan_number2] at h
      split at h
      · next hdig =>
          have hp : (digits2Loop ((start, ch) :: rest) start).2.length ≤ rest.length := by
            rw [digits2Loop, if_pos hdig]
            exact digits2Loop_length_le rest start
          split at h
          · next m rest2 heq =>
              simp only [Option.some.injEq, Prod.mk.injEq] at h
              obtain ⟨h1, -, h3⟩ := h
              subst h1
              subst h3
              refine ⟨by decide, ?_⟩
              have h2 : (digits2Loop rest2 (digits2Loop ((start, ch) :: rest) start).1).2.length
                  ≤ rest2.length := digits2Loop_length_le _ _
              have : rest2.length + 1 = (digits2Loop ((start, ch) :: rest) start).2.length := by
                rw [heq]; simp
              simp only [List.length_cons]
              omega
          · simp only [Option.some.injEq, Prod.mk.injEq] at h
            obtain ⟨h1, -, h3⟩ := h
            subst h1
            subst h3
            exact ⟨by decide, Nat.lt_succ_of_le hp⟩
      · simp at h

theorem scan_identifier2_spec {cs : Chars} {tt : TokenType} {r : Nat × Nat} {cs' : Chars}
    (h : scan_identifier2 cs = some (tt, r, cs')) :
    tt ≠ .TEof ∧ cs'.length < cs.length := by
  cases cs with
  | nil => simp [scan_identifier2] at h
  | cons hd rest =>
      obtain ⟨start, ch⟩ := hd
      simp only [scan_identifier2] at h
      split at h
      · next hal =>
          simp only [Option.some.injEq, Prod.mk.injEq] at h
          obtain ⟨h1, -, h3⟩ := h
          subst h1
          subst h3
          refine ⟨by decide, ?_⟩
          have : (identChars2Loop ((start, ch) :: rest) start).2.length ≤ rest.length := by
            have hstep : ch.isAlphanum = true ∨ ch = '_' := by
              rcases hal with hA | hU
              · exact Or.inl (by simp [Char.isAlphanum, hA])
              · exact Or.inr hU
            rw [identChars2Loop, if_pos hstep]
            exact identChars2Loop_length_le rest start
          exact Nat.lt_succ_of_le this
      · simp at h

theorem scan_string2_spec {cs : Chars} {tt : TokenType} {r : Nat × Nat} {cs' : Chars}
    (h : scan_string2 cs = some (tt, r, cs')) :
    tt ≠ .TEof ∧ cs'.length < cs.length := by
  cases cs with
  | nil => simp [scan_string2] at h
  | cons hd rest =>
      obtain ⟨start, ch⟩ := hd
      simp only [scan_string2] at h
      split at h
      · simp only [Option.some.injEq, Prod.mk.injEq] at h
        obtain ⟨h1, -, h3⟩ := h
        subst h1
        subst h3
        exact ⟨by decide, Nat.lt_succ_of_le (str2Loop_length_le rest (start + 1))⟩
      · simp at h

/-- Every `some` step of `scan_token2` yields a non-`TEof` token type
and strictly shrinks the stream: the justification that one `TEof` is
appended exactly once and that the driver's fuel never runs out. -/
theorem scan_token2_spec {cs : Chars} {tt : TokenType} {r : Nat × Nat} {cs' : Chars}
    (h : scan_token2 cs = some (tt, r, cs')) :
    tt ≠ .TEof ∧ cs'.length < cs.length := by
  unfold scan_token2 at h
  split at h
  · next heq => cases h; exact scan_simple_symbol_spec heq
  · split at h
    · next heq => cases h; exact scan_compare_symbol_spec heq
    · split at h
      · next heq => cases h; exact ignore_whitespace_spec heq
      · split at h
        · next heq => cases h; exact scan_number2_spec heq
        · split at h
          · next heq => cases h; exact scan_identifier2_spec heq
          · exact scan_string2_spec h

/-- No token the tokenize2 driver loop accumulates is an end-of-input
token. -/
theorem scan2Loop_no_teof (src : List Char) (line : Nat) :
    ∀ (fuel : Nat) (cs : Chars) (acc : List Token2),
      (∀ t ∈ acc, t.toktype ≠ .TEof) →
      ∀ t ∈ scan2Loop src line fuel cs acc, t.toktype ≠ .TEof
| 0, cs, acc, hacc => by simpa [scan2Loop] using hacc
| fuel + 1, cs, acc, hacc => by
    simp only [scan2Loop]
    split
    · exact hacc
    · next toktype rng chars1 heq =>
        refine scan2Loop_no_teof src line fuel chars1 _ ?_
        intro t ht
        split at ht
        · exact hacc t ht
        · rcases List.mem_append.mp ht with h1 | h1
          · exact hacc t h1
          · have : t = ⟨toktype, sliceStr src rng.1 rng.2, line⟩ := by simpa using h1
            rw [this]
            exact (scan_token2_spec heq).1

/-- Fuel irrelevance for the tokenize2 driver loop: any budget larger
than the stream is equivalent, because each step consumes at least one
character — the `chars.length + 1` budget used by `scan_tokens2`
computes exactly the Rust loop. -/
theorem scan2Loop_fuel_eq (src : List Char) (line : Nat) :
    ∀ (f1 : Nat) (f2 : Nat) (cs : Chars) (acc : List Token2),
      cs.length < f1 → cs.length < f2 →
      scan2Loop src line f1 cs acc = scan2Loop src line f2 cs acc
| 0, _, cs, _, h1, _ => absurd h1 (Nat.not_lt_zero _)
| _ + 1, 0, cs, _, _, h2 => absurd h2 (Nat.not_lt_zero _)
| f1 + 1, f2 + 1, cs, acc, h1, h2 => by
    simp only [scan2Loop]
    split
    · rfl
    · next toktype rng chars1 heq =>
        have hlt := (scan_token2_spec heq).2
        exact scan2Loop_fuel_eq src line f1 f2 chars1 _ (by omega) (by omega)

/-! # Claim theorems -/

/-- Scanning, parsing and executing `c1_source` from a fresh
environment: success, one printed line `LNumber(3.0)`, and a final
top-level scope binding exactly `x ↦ Number(3)`. -/
theorem c1_run_eq :
    run_scanned c1_source Env.fresh =
      RunRes.ok (Env.mk none [("x", .LNumber 3)]) ["LNumber(3.0)"] := by
  have hscan : Scanner.scan_tokens c1_source = .ok ⟨c1_tokens⟩ := by
    with_unfolding_all rfl
  unfold run_scanned
  rw [hscan]
  with_unfolding_all rfl

/-- C1 (counterexample): running `var x = 1; x = x + 2; print x;`
through scan → parse → execute does not emit the text `3`: the print
statement formats with `println!("{value:?}")`, so the emitted line is
the Debug rendering `LNumber(3.0)`. -/
theorem c1_counterexample :
    (run_scanned c1_source Env.fresh).output ≠ some ["3"] ∧
    (run_scanned c1_source Env.fresh).output = some ["LNumber(3.0)"] := by
  rw [c1_run_eq]
  exact ⟨by decide, rfl⟩

/-- C1 (amended): executing `var x = 1; x = x + 2; print x;` from a
fresh environment succeeds, emits exactly the line `LNumber(3.0)` (the
Debug rendering of the printed value), and leaves `x` bound to
`Number(3)`. -/
theorem c1_theorem :
    (run_scanned c1_source Env.fresh).output = some ["LNumber(3.0)"] ∧
    (run_scanned c1_source Env.fresh).bindingOf "x" = some (some (.LNumber 3)) := by
  rw [c1_run_eq]
  exact ⟨rfl, by decide⟩

/-- C2: evaluating `Variable(name)` when `name` is unbound does not
return an `UndefinedVariable` error — it panics: the evaluator runs
`environ.lookup(name).unwrap()`, and the evaluator's `Error` enum has
no `UndefinedVariable` variant at all. The same panic reaches
statement level for `print name;`. -/
theorem c2_theorem (env : Env) (name : String) (h : env.lookup name = none) :
    evaluate_expression (.EVariable name) env =
      .panic "called Option::unwrap() on a None value" ∧
    execute_statement (.SPrint (.EVariable name)) env =
      .panic "called Option::unwrap() on a None value" := by
  constructor
  · simp [evaluate_expression, h]
  · simp [execute_statement, evaluate_expression, h]

/-- C2 witness: the fresh environment with the unbound name `y`. -/
theorem c2_witness :
    Env.fresh.lookup "y" = none ∧
    (evaluate_expression (.EVariable "y") Env.fresh =
       .panic "called Option::unwrap() on a None value" ∧
     execute_statement (.SPrint (.EVariable "y")) Env.fresh =
       .panic "called Option::unwrap() on a None value") :=
  ⟨rfl, c2_theorem Env.fresh "y" rfl⟩

/-- C3: evaluating `Assign("y", Number("2"))` in a fresh environment
where `y` was never declared does not produce an `UndefinedVariable`
error — it succeeds and implicitly declares `y` in the current scope
(`Environment::assign` is an unchecked `insert`); and with a parent
scope that does hold `y`, `assign` still inserts into the current
scope, leaving the parent's binding unread and unchanged rather than
updating the nearest enclosing scope that declares the name. -/
theorem c3_theorem :
    (evaluate_expression (.EAssign "y" (.ENumber "2")) Env.fresh).valOf =
      some (.LNumber 2) ∧
    (evaluate_expression (.EAssign "y" (.ENumber "2")) Env.fresh).bindingOf "y" =
      some (some (.LNumber 2)) ∧
    (Env.assign (Env.mk (some (Env.mk none [("y", .LNumber 1)])) []) "y" (.LNumber 2)).vars =
      [("y", .LNumber 2)] ∧
    ((Env.assign (Env.mk (some (Env.mk none [("y", .LNumber 1)])) []) "y"
        (.LNumber 2)).parent).map Env.vars = some [("y", .LNumber 1)] := by
  refine ⟨by decide, by decide, by decide, by decide⟩

/-- C4: parsing the tokens of `1 = 2;` does not return a
`SyntaxError` value — after the left side (and right side) of `=` are
parsed, `parse_assignment` hits `panic!("invalid assignment target")`. -/
theorem c4_theorem :
    (parse_source "1 = 2;").panicMsg = some "invalid assignment target" ∧
    (parse_source "1 = 2;").errOf = none ∧
    (parse_source "1 = 2;").okVal = (none : Option AST) := by
  have hscan : Scanner.scan_tokens "1 = 2;" =
      .ok ⟨[⟨.TNumber, "1", .LitNum 1, 1⟩, ⟨.TEqual, "=", .LitNone, 1⟩,
            ⟨.TNumber, "2", .LitNum 2, 1⟩, ⟨.TSemicolon, ";", .LitNone, 1⟩,
            ⟨.TEof, "", .LitNone, 1⟩]⟩ := by
    with_unfolding_all rfl
  have hps : parse_source "1 = 2;" = .panic "invalid assignment target" := by
    unfold parse_source
    rw [hscan]
    with_unfolding_all rfl
  rw [hps]
  exact ⟨rfl, rfl, rfl⟩

/-- C5 (counterexample): the parser does not accept `1 + 2 < 3;` — its
single flat binary level consumes `1 + 2` and then requires `;`, so the
parse fails with the syntax error at `<` instead of producing the
layered comparison AST. -/
theorem c5_counterexample :
    (parse_source "1 + 2 < 3;").okVal = (none : Option AST) ∧
    (parse_source "1 + 2 < 3;").errOf =
      some (1, "Expected ';' after value. at \"<\"") := by
  have hscan : Scanner.scan_tokens "1 + 2 < 3;" =
      .ok ⟨[⟨.TNumber, "1", .LitNum 1, 1⟩, ⟨.TPlus, "+", .LitNone, 1⟩,
            ⟨.TNumber, "2", .LitNum 2, 1⟩, ⟨.TLess, "<", .LitNone, 1⟩,
            ⟨.TNumber, "3", .LitNum 3, 1⟩, ⟨.TSemicolon, ";", .LitNone, 1⟩,
            ⟨.TEof, "", .LitNone, 1⟩]⟩ := by
    with_unfolding_all rfl
  have hps : parse_source "1 + 2 < 3;" =
      .err 1 "Expected ';' after value. at \"<\"" := by
    unfold parse_source
    rw [hscan]
    with_unfolding_all rfl
  rw [hps]
  exact ⟨rfl, rfl⟩

/-- C5 (amended): the binary level is a single non-chaining rule, so a
comparison over a sum needs parentheses: `(1 + 2) < 3;` parses into
`Binary(Grouping(Binary(Number("1"), Add, Number("2"))), Lt,
Number("3"))`. -/
theorem c5_theorem :
    (parse_source "(1 + 2) < 3;").okVal =
      some ⟨[.SExpression (.EBinary
        (.EGrouping (.EBinary (.ENumber "1") .OAdd (.ENumber "2")))
        .OLt (.ENumber "3"))]⟩ := by
  have hscan : Scanner.scan_tokens "(1 + 2) < 3;" =
      .ok ⟨[⟨.TLeftParen, "(", .LitNone, 1⟩, ⟨.TNumber, "1", .LitNum 1, 1⟩,
            ⟨.TPlus, "+", .LitNone, 1⟩, ⟨.TNumber, "2", .LitNum 2, 1⟩,
            ⟨.TRightParen, ")", .LitNone, 1⟩, ⟨.TLess, "<", .LitNone, 1⟩,
            ⟨.TNumber, "3", .LitNum 3, 1⟩, ⟨.TSemicolon, ";", .LitNone, 1⟩,
            ⟨.TEof, "", .LitNone, 1⟩]⟩ := by
    with_unfolding_all rfl
  unfold parse_source
  rw [hscan]
  with_unfolding_all rfl

/-- C6 (counterexample): scanning the input `"\n"` ends with an
end-of-input token whose line field is 1, not the final line count 2
the claim requires — tokenize2's line counter is never incremented. -/
theorem c6_counterexample :
    (scan2TokensList "\n").getLast?.map Token2.line ≠ some (finalLineCount "\n") ∧
    (scan2TokensList "\n").getLast?.map Token2.line = some 1 ∧
    finalLineCount "\n" = 2 := by
  refine ⟨by decide, by decide, by decide⟩

/-- C6 (amended): for every input string, scanning terminates and
returns `Ok` with a token list that ends with exactly one end-of-input
token — whose line field is always 1, the never-incremented initial
value of the line counter. -/
theorem c6_theorem (s : String) :
    ∃ ts : Tokens2, scan_tokens2 s = Except.ok ts ∧
      ts.tokens ≠ [] ∧
      ts.tokens.getLast? = some ⟨.TEof, "", 1⟩ ∧
      (ts.tokens.filter (fun t => decide (t.toktype = .TEof))).length = 1 := by
  refine ⟨⟨scan2Loop s.data 1 (s.data.length + 1) (charIndices s) []
      ++ [(⟨.TEof, "", 1⟩ : Token2)]⟩,
    rfl, by simp, List.getLast?_concat _, ?_⟩
  rw [List.filter_append]
  have hfree := scan2Loop_no_teof s.data 1 (s.data.length + 1) (charIndices s) []
    (by intro t ht; simp at ht)
  have hnil : (scan2Loop s.data 1 (s.data.length + 1) (charIndices s) []).filter
      (fun t => decide (t.toktype = .TEof)) = [] := by
    rw [List.filter_eq_nil_iff]
    intro a ha
    simpa using hfree a ha
  rw [hnil]
  simp

/-- C7: scanning `abc $ def` does not record an `UnexpectedCharacter`
error and does not continue past the `$`: `scan_token` returns `None`
on `$`, the driver loop stops, and the result is `Ok` with only the
`abc` identifier token and the end-of-input token — `def` is never
tokenized and no error is ever constructed. -/
theorem c7_theorem :
    scan_tokens2 "abc $ def" =
      Except.ok ⟨[⟨.TIdentifier, "abc", 1⟩, ⟨.TEof, "", 1⟩]⟩ := by
  rfl

/-- C8: scanning the unterminated literal `"unterminated` reports no
`UnterminatedString` error and does produce a string token for the
partial literal: `scan_string` consumes to end of input and yields
`TString` either way, and the result is `Ok` with an un-built error
list. -/
theorem c8_theorem :
    scan_tokens2 "\"unterminated" =
      Except.ok ⟨[⟨.TString, "\"unterminated", 1⟩, ⟨.TEof, "", 1⟩]⟩ := by
  rfl

/-- C9: tokenize2 has no case for `/` at all: a lone `/` emits no slash
token (the scan stops, leaving only the end-of-input token), `//` does
not start a comment (the remainder of the line is simply never
scanned), and any input after a `/` is dropped. -/
theorem c9_theorem :
    scan_token2 (charIndices "/") = none ∧
    scan_tokens2 "/" = Except.ok ⟨[⟨.TEof, "", 1⟩]⟩ ∧
    scan_tokens2 "// comment" = Except.ok ⟨[⟨.TEof, "", 1⟩]⟩ ∧
    scan_tokens2 "1 / 2" =
      Except.ok ⟨[⟨.TNumber, "1", 1⟩, ⟨.TEof, "", 1⟩]⟩ := by
  refine ⟨rfl, rfl, rfl, rfl⟩

/-- C10: for every source text and every starting environment, the
pipeline's `tokenize` (the stubbed function in tokenize.rs that
`run_interp` calls) returns `Ok` with an empty token vector without
running its `Scanner`, the parse of that empty vector is the empty
program, and the whole run succeeds with no print output and the
environment unchanged. -/
theorem c10_theorem (source : String) (env : Env) :
    tokenize source = Except.ok ⟨[]⟩ ∧
    parse ⟨[]⟩ = PRes.ok ⟨[]⟩ ⟨[], 0⟩ ∧
    run_interp env source = RunRes.ok env [] := by
  refine ⟨rfl, rfl, rfl⟩

end Lox
